import Mathlib

/-!
Shallow embedding of the Entropy client cross-margin risk engine
(class EntropyAccount): worst-case resolution of spot/perp exposure into
per-market health components and their weighted aggregation into
health, health ratio, liquidation price and margin-available metrics.

The I80F48 fixed-point numeric type (fixednum.ts, not under src/) is
modelled from the spec as exact rational arithmetic: the spec demands
exact deterministic arithmetic and leaves the truncation rule open.
Arrays indexed by oracle/token index are modelled as total functions.
-/

/-- Health regime selector (HealthType in the source). -/
inductive HealthType
  | Init
  | Maint
deriving DecidableEq

/-- Interest-index record for one token (RootBankCache in the source). -/
structure RootBankCache where
  depositIndex : ℚ
  borrowIndex : ℚ

/-- Modelled from the spec: the four fields splitOpenOrders (utils.ts, not
under src/) extracts from a serum open-orders account; the spec's data model
lists exactly these per-market open-orders quantities. -/
structure OpenOrdersSplit where
  quoteFree : ℚ
  quoteLocked : ℚ
  baseFree : ℚ
  baseLocked : ℚ

/-- Per-market perpetual position (PerpAccount fields used by the resolver).
Lot counts are integers (BN i64 in the source). -/
structure PerpAccountRec where
  basePosition : ℤ
  takerBase : ℤ
  takerQuote : ℤ
  bidsQuantity : ℤ
  asksQuantity : ℤ
  quotePosition : ℚ

/-- Spot-market risk weights from the market registry. -/
structure SpotMarketInfo where
  initAssetWeight : ℚ
  initLiabWeight : ℚ
  maintAssetWeight : ℚ
  maintLiabWeight : ℚ

/-- Perp-market registry entry; `present` models
`!perpMarkets[i].perpMarket.equals(zeroKey)`. -/
structure PerpMarketInfo where
  present : Bool
  initAssetWeight : ℚ
  initLiabWeight : ℚ
  maintAssetWeight : ℚ
  maintLiabWeight : ℚ
  baseLotSize : ℤ
  quoteLotSize : ℤ

/-- Market registry (EntropyGroup fields used by the risk engine). -/
structure EntropyGroup where
  numOracles : ℕ
  spotMarkets : ℕ → SpotMarketInfo
  perpMarkets : ℕ → PerpMarketInfo
  tokenDecimals : ℕ → ℕ

/-- Price and interest-index cache (EntropyCache fields used here). -/
structure EntropyCache where
  priceCache : ℕ → ℚ
  rootBankCache : ℕ → RootBankCache

/-- Account snapshot (EntropyAccount fields used by the risk engine).
`quotePosition` on each PerpAccountRec is the funding-adjusted running quote
balance, see getQuotePosition below. -/
structure EntropyAccount where
  deposits : ℕ → ℚ
  borrows : ℕ → ℚ
  inMarginBasket : ℕ → Bool
  spotOpenOrdersAccounts : ℕ → Option OpenOrdersSplit
  perpAccounts : ℕ → PerpAccountRec
  beingLiquidated : Bool

/-- Modelled from the spec: QUOTE_INDEX (layout.ts, not under src/) is the
reserved quote-currency token index outside the oracle range [0, numOracles). -/
def QUOTE_INDEX : ℕ := 15

/-- Modelled from the spec: PerpAccount.getQuotePosition (not under src/)
returns the funding-adjusted running quote balance supplied by the
perp-funding evaluator collaborator; modelled as a snapshot field. -/
def getQuotePosition (pa : PerpAccountRec) : ℚ :=
  pa.quotePosition

/-- One risk-weight set, as returned by getWeights. -/
structure Weights where
  spotAssetWeight : ℚ
  spotLiabWeight : ℚ
  perpAssetWeight : ℚ
  perpLiabWeight : ℚ

/-- Modelled from the spec: getWeights (utils.ts, not under src/) selects the
risk-weight set named by the health type from the market registry. -/
def getWeights (g : EntropyGroup) (i : ℕ) : HealthType → Weights
  | .Init =>
    ⟨(g.spotMarkets i).initAssetWeight, (g.spotMarkets i).initLiabWeight,
      (g.perpMarkets i).initAssetWeight, (g.perpMarkets i).initLiabWeight⟩
  | .Maint =>
    ⟨(g.spotMarkets i).maintAssetWeight, (g.spotMarkets i).maintLiabWeight,
      (g.perpMarkets i).maintAssetWeight, (g.perpMarkets i).maintLiabWeight⟩

/-- deposits − borrows in native terms (getNet in the source). -/
def getNet (a : EntropyAccount) (bankCache : RootBankCache) (tokenIndex : ℕ) : ℚ :=
  a.deposits tokenIndex * bankCache.depositIndex -
    a.borrows tokenIndex * bankCache.borrowIndex

/-- Spot part of one getHealthComponents loop iteration (source lines
624-649), as a function of the quantities it reads: returns the resolved
spot component for the market and the increment added to `quote`. -/
def resolveSpotCore (price baseNet : ℚ) (openOrders : Option OpenOrdersSplit)
    (inBasket : Bool) : ℚ × ℚ :=
  match openOrders, inBasket with
  | some oo, true =>
    let bidsBaseNet := baseNet + oo.quoteLocked / price + oo.baseFree + oo.baseLocked
    let asksBaseNet := baseNet + oo.baseFree
    if |asksBaseNet| < |bidsBaseNet| then
      (bidsBaseNet, oo.quoteFree)
    else
      (asksBaseNet, oo.baseLocked * price + oo.quoteFree + oo.quoteLocked)
  | _, _ => (baseNet, 0)

/-- Spot part of one getHealthComponents loop iteration for market `i`. -/
def resolveSpot (_g : EntropyGroup) (c : EntropyCache) (a : EntropyAccount)
    (i : ℕ) : ℚ × ℚ :=
  resolveSpotCore (c.priceCache i) (getNet a (c.rootBankCache i) i)
    (a.spotOpenOrdersAccounts i) (a.inMarginBasket i)

/-- Perp part of one getHealthComponents loop iteration (source lines
651-690), as a function of the quantities it reads: returns the resolved
perp component for the market and the increment added to `quote`. -/
def resolvePerpCore (price : ℚ) (pm : PerpMarketInfo) (pa : PerpAccountRec) :
    ℚ × ℚ :=
  if pm.present then
    let takerQuote : ℚ := ((pa.takerQuote * pm.quoteLotSize : ℤ) : ℚ)
    let basePos : ℚ := (((pa.basePosition + pa.takerBase) * pm.baseLotSize : ℤ) : ℚ)
    let bidsQuantity : ℚ := ((pa.bidsQuantity * pm.baseLotSize : ℤ) : ℚ)
    let asksQuantity : ℚ := ((pa.asksQuantity * pm.baseLotSize : ℤ) : ℚ)
    let bidsBaseNet := basePos + bidsQuantity
    let asksBaseNet := basePos - asksQuantity
    if |asksBaseNet| < |bidsBaseNet| then
      (bidsBaseNet, getQuotePosition pa + takerQuote - bidsQuantity * price)
    else
      (asksBaseNet, getQuotePosition pa + takerQuote + asksQuantity * price)
  else (0, 0)

/-- Perp part of one getHealthComponents loop iteration for market `i`. -/
def resolvePerp (g : EntropyGroup) (c : EntropyCache) (a : EntropyAccount)
    (i : ℕ) : ℚ × ℚ :=
  resolvePerpCore (c.priceCache i) (g.perpMarkets i) (a.perpAccounts i)

/-- Output of the health-component resolver. -/
structure HealthComponents where
  spot : ℕ → ℚ
  perps : ℕ → ℚ
  quote : ℚ

/-- Worst-case health components (getHealthComponents in the source): the
`quote` accumulator starts at the net quote-token balance and every loop
iteration adds its spot and perp quote increments; `spot`/`perps` vectors are
zero outside [0, numOracles). -/
def getHealthComponents (g : EntropyGroup) (c : EntropyCache)
    (a : EntropyAccount) : HealthComponents where
  spot := fun i => if i < g.numOracles then (resolveSpot g c a i).1 else 0
  perps := fun i => if i < g.numOracles then (resolvePerp g c a i).1 else 0
  quote := getNet a (c.rootBankCache QUOTE_INDEX) QUOTE_INDEX +
    ∑ i in Finset.range g.numOracles,
      ((resolveSpot g c a i).2 + (resolvePerp g c a i).2)

/-- Weight applied to a signed spot component: asset weight when strictly
positive (isPos in the source), liab weight otherwise. -/
def spotWeightFor (w : Weights) (x : ℚ) : ℚ :=
  if 0 < x then w.spotAssetWeight else w.spotLiabWeight

/-- Weight applied to a signed perp component. -/
def perpWeightFor (w : Weights) (x : ℚ) : ℚ :=
  if 0 < x then w.perpAssetWeight else w.perpLiabWeight

/-- Weighted aggregation of health components (getHealthFromComponents). -/
def getHealthFromComponents (g : EntropyGroup) (c : EntropyCache)
    (spot perps : ℕ → ℚ) (quote : ℚ) (t : HealthType) : ℚ :=
  quote + ∑ i in Finset.range g.numOracles,
    (spot i * c.priceCache i * spotWeightFor (getWeights g i t) (spot i) +
      perps i * c.priceCache i * perpWeightFor (getWeights g i t) (perps i))

/-- Account health under a regime (getHealth in the source). -/
def getHealth (g : EntropyGroup) (c : EntropyCache) (a : EntropyAccount)
    (t : HealthType) : ℚ :=
  let hc := getHealthComponents g c a
  getHealthFromComponents g c hc.spot hc.perps hc.quote t

/-- Weighted assets/liabs split of the health components
(getWeightedAssetsLiabsVals in the source): each signed contribution is
bucketed into the nonnegative-accumulating `assets` or `liabs` total,
negated before weighting when on the liability side.
Returned as a pair (assets, liabs). -/
def getWeightedAssetsLiabsVals (g : EntropyGroup) (c : EntropyCache)
    (spot perps : ℕ → ℚ) (quote : ℚ) (t : HealthType) : ℚ × ℚ :=
  ((if 0 < quote then quote else 0) +
    ∑ i in Finset.range g.numOracles,
      ((if 0 < spot i then
          spot i * c.priceCache i * (getWeights g i t).spotAssetWeight else 0) +
        (if 0 < perps i then
          perps i * c.priceCache i * (getWeights g i t).perpAssetWeight else 0)),
   (if 0 < quote then 0 else -quote) +
    ∑ i in Finset.range g.numOracles,
      ((if 0 < spot i then 0 else
          -(spot i) * c.priceCache i * (getWeights g i t).spotLiabWeight) +
        (if 0 < perps i then 0 else
          -(perps i) * c.priceCache i * (getWeights g i t).perpLiabWeight)))

/-- Health ratio (getHealthRatio in the source): (assets/liabs − 1) × 100 when
liabs > 0, else exactly 100. -/
def getHealthRatio (g : EntropyGroup) (c : EntropyCache) (a : EntropyAccount)
    (t : HealthType) : ℚ :=
  let hc := getHealthComponents g c a
  let al := getWeightedAssetsLiabsVals g c hc.spot hc.perps hc.quote t
  if 0 < al.2 then (al.1 / al.2 - 1) * 100 else 100

/-- Liquidation trigger (isLiquidatable in the source). -/
def isLiquidatable (g : EntropyGroup) (c : EntropyCache) (a : EntropyAccount) :
    Bool :=
  (a.beingLiquidated && decide (getHealth g c a .Init < 0)) ||
    decide (getHealth g c a .Maint < 0)

/-- The target-market term of getLiquidationPrice (source lines 101-108):
the Maint-weighted signed exposure of the target market, negated. Zero when
the oracle index is out of range (the loop never reaches it). -/
def liqWeightedAsset (g : EntropyGroup) (c : EntropyCache) (a : EntropyAccount)
    (oracleIndex : ℕ) : ℚ :=
  if oracleIndex < g.numOracles then
    -((getHealthComponents g c a).spot oracleIndex *
        spotWeightFor (getWeights g oracleIndex .Maint)
          ((getHealthComponents g c a).spot oracleIndex) +
      (getHealthComponents g c a).perps oracleIndex *
        perpWeightFor (getWeights g oracleIndex .Maint)
          ((getHealthComponents g c a).perps oracleIndex))
  else 0

/-- The price-independent part of getLiquidationPrice (partialHealth in the
source, lines 97 and 109-118): quote plus every market's Maint-weighted
contribution except the target market's. -/
def liqOtherHealth (g : EntropyGroup) (c : EntropyCache) (a : EntropyAccount)
    (oracleIndex : ℕ) : ℚ :=
  let hc := getHealthComponents g c a
  hc.quote + ∑ i in (Finset.range g.numOracles).erase oracleIndex,
    (hc.spot i * c.priceCache i * spotWeightFor (getWeights g i .Maint) (hc.spot i) +
      hc.perps i * c.priceCache i * perpWeightFor (getWeights g i .Maint) (hc.perps i))

/-- Price making health(Maint) zero (getLiquidationPrice in the source):
none when the weighted target exposure is zero or the solved price is
negative, otherwise the solved price scaled to native market-price units. -/
def getLiquidationPrice (g : EntropyGroup) (c : EntropyCache)
    (a : EntropyAccount) (oracleIndex : ℕ) : Option ℚ :=
  let weightedAsset := liqWeightedAsset g c a oracleIndex
  if weightedAsset = 0 then none
  else
    let liqPrice := liqOtherHealth g c a oracleIndex / weightedAsset
    if liqPrice < 0 then none
    else some (liqPrice *
      ((10 : ℚ) ^ g.tokenDecimals oracleIndex /
        (10 : ℚ) ^ g.tokenDecimals QUOTE_INDEX))

/-- Native deposit amount: shares × deposit index (getNativeDeposit). -/
def getNativeDeposit (a : EntropyAccount) (rootBank : RootBankCache)
    (tokenIndex : ℕ) : ℚ :=
  rootBank.depositIndex * a.deposits tokenIndex

/-- Native borrow amount: shares × borrow index (getNativeBorrow). -/
def getNativeBorrow (a : EntropyAccount) (rootBank : RootBankCache)
    (tokenIndex : ℕ) : ℚ :=
  rootBank.borrowIndex * a.borrows tokenIndex

/-- Modelled from the spec: nativeI80F48ToUi (utils.ts, not under src/)
divides a native amount by 10^decimals to convert to UI units. -/
def nativeI80F48ToUi (x : ℚ) (decimals : ℕ) : ℚ :=
  x / (10 : ℚ) ^ decimals

/-- UI deposit amount, floored as in the source (getUiDeposit). -/
def getUiDeposit (a : EntropyAccount) (rootBank : RootBankCache)
    (g : EntropyGroup) (tokenIndex : ℕ) : ℚ :=
  nativeI80F48ToUi ((Int.floor (getNativeDeposit a rootBank tokenIndex) : ℤ) : ℚ)
    (g.tokenDecimals tokenIndex)

/-- UI borrow amount, ceiled as in the source (getUiBorrow). -/
def getUiBorrow (a : EntropyAccount) (rootBank : RootBankCache)
    (g : EntropyGroup) (tokenIndex : ℕ) : ℚ :=
  nativeI80F48ToUi ((Int.ceil (getNativeBorrow a rootBank tokenIndex) : ℤ) : ℚ)
    (g.tokenDecimals tokenIndex)

/-- Native quote available to expand a position in one market
(getMarketMarginAvailable in the source). `isSpot` models the
marketType === 'spot' check. -/
def getMarketMarginAvailable (g : EntropyGroup) (c : EntropyCache)
    (a : EntropyAccount) (marketIndex : ℕ) (isSpot : Bool) : ℚ :=
  let health := getHealth g c a .Init
  if health ≤ 0 then 0
  else
    let w := getWeights g marketIndex .Init
    let weight := if isSpot then w.spotAssetWeight else w.perpAssetWeight
    if 1 ≤ weight then health
    else health / (1 - weight)

/-- Token amount withdrawable without borrowing (getAvailableBalance). -/
def getAvailableBalance (g : EntropyGroup) (c : EntropyCache)
    (a : EntropyAccount) (tokenIndex : ℕ) : ℚ :=
  let health := getHealth g c a .Init
  let net := getNet a (c.rootBankCache tokenIndex) tokenIndex
  if tokenIndex = QUOTE_INDEX then
    max (min health net) 0
  else
    let w := getWeights g tokenIndex .Init
    max (min net (health / w.spotAssetWeight / c.priceCache tokenIndex)) 0

/-- Modelled from the spec: EntropyGroup.getPrice (not under src/) converts
the cached native price to UI units, 1 for the quote index. -/
def groupGetPrice (g : EntropyGroup) (c : EntropyCache) (tokenIndex : ℕ) : ℚ :=
  if tokenIndex = QUOTE_INDEX then 1
  else c.priceCache tokenIndex * (10 : ℚ) ^ g.tokenDecimals tokenIndex /
    (10 : ℚ) ^ g.tokenDecimals QUOTE_INDEX

/-- Largest borrow-financed withdrawal of one token
(getMaxWithBorrowForToken in the source). -/
def getMaxWithBorrowForToken (g : EntropyGroup) (c : EntropyCache)
    (a : EntropyAccount) (tokenIndex : ℕ) : ℚ :=
  let oldInitHealth : ℚ := ((Int.floor (getHealth g c a .Init) : ℤ) : ℚ)
  let tokenDeposits : ℚ :=
    ((Int.floor (getNativeDeposit a (c.rootBankCache tokenIndex) tokenIndex) : ℤ) : ℚ)
  let liabWeight := if tokenIndex = QUOTE_INDEX then 1
    else (g.spotMarkets tokenIndex).initLiabWeight
  let assetWeight := if tokenIndex = QUOTE_INDEX then 1
    else (g.spotMarkets tokenIndex).initAssetWeight
  let nativePrice := if tokenIndex = QUOTE_INDEX then 1
    else c.priceCache tokenIndex
  let newInitHealth : ℚ :=
    ((Int.floor (oldInitHealth - tokenDeposits * nativePrice * assetWeight) : ℤ) : ℚ)
  let price := groupGetPrice g c tokenIndex
  let healthDecimals : ℚ := (10 : ℚ) ^ g.tokenDecimals QUOTE_INDEX
  newInitHealth / healthDecimals / (price * liabWeight)

/-- Order side for getMaxLeverageForMarket. -/
inductive Side
  | buy
  | sell
deriving DecidableEq

/-- The market argument of getMaxLeverageForMarket: either a spot market or
a perp market. The perp lot-to-number conversion (PerpMarket.baseLotsToNumber,
not under src/) follows getBasePositionUiWithGroup in the source:
lots × baseLotSize / 10^decimals. -/
inductive MarketObj
  | spotMkt
  | perpMkt (baseLotSize : ℤ) (baseDecimals : ℕ)

/-- Max position expansion keeping health(Init) nonnegative
(getMaxLeverageForMarket in the source); only the `max` field of the
source's return record is modelled. -/
def getMaxLeverageForMarket (g : EntropyGroup) (c : EntropyCache)
    (a : EntropyAccount) (marketIndex : ℕ) (market : MarketObj) (side : Side)
    (price : ℚ) : ℚ :=
  let initHealth := getHealth g c a .Init
  let healthDecimals : ℚ := (10 : ℚ) ^ g.tokenDecimals QUOTE_INDEX
  let uiInitHealth := initHealth / healthDecimals
  let vals : ℚ × ℚ × ℚ × ℚ :=  -- (uiDepositVal, uiBorrowVal, initLiabWeight, initAssetWeight)
    match market with
    | .perpMkt baseLotSize baseDecimals =>
      let basePos := (a.perpAccounts marketIndex).basePosition
      let uiPos : ℚ := ((basePos * baseLotSize : ℤ) : ℚ) / (10 : ℚ) ^ baseDecimals
      if 0 < basePos then
        (uiPos * price, 0,
          (g.perpMarkets marketIndex).initLiabWeight,
          (g.perpMarkets marketIndex).initAssetWeight)
      else
        (0, |uiPos| * price,
          (g.perpMarkets marketIndex).initLiabWeight,
          (g.perpMarkets marketIndex).initAssetWeight)
    | .spotMkt =>
      (getUiDeposit a (c.rootBankCache marketIndex) g marketIndex * price,
        getUiBorrow a (c.rootBankCache marketIndex) g marketIndex * price,
        (g.spotMarkets marketIndex).initLiabWeight,
        (g.spotMarkets marketIndex).initAssetWeight)
  match side with
  | .buy =>
    (uiInitHealth + vals.2.1 * (vals.2.2.1 - 1)) / (1 - vals.2.2.2) + vals.2.1
  | .sell =>
    (uiInitHealth + vals.1 * (1 - vals.2.2.2)) / (vals.2.2.1 - 1) + vals.1

/-- Total contribution of market `i` to health: its quote adjustments plus
its weighted spot and perp components (one iteration of the source's
getHealthComponents loop followed by one of getHealthFromComponents). -/
def marketHealthTerm (g : EntropyGroup) (c : EntropyCache) (a : EntropyAccount)
    (t : HealthType) (i : ℕ) : ℚ :=
  (resolveSpot g c a i).2 + (resolvePerp g c a i).2 +
    ((resolveSpot g c a i).1 * c.priceCache i *
        spotWeightFor (getWeights g i t) ((resolveSpot g c a i).1) +
      (resolvePerp g c a i).1 * c.priceCache i *
        perpWeightFor (getWeights g i t) ((resolvePerp g c a i).1))

/-- The perp position with its settled base decreased by δ lots, all other
fields unchanged. -/
def decBasePosition (pa : PerpAccountRec) (δ : ℤ) : PerpAccountRec :=
  { pa with basePosition := pa.basePosition - δ }

/-! ## Concrete inputs used by witnesses and counterexamples -/

/-- One-market registry with no perp market; spot Init asset weight 9/10. -/
def wGroupS : EntropyGroup where
  numOracles := 1
  spotMarkets := fun _ => ⟨9/10, 11/10, 95/100, 105/100⟩
  perpMarkets := fun _ => ⟨false, 1, 1, 1, 1, 1, 1⟩
  tokenDecimals := fun _ => 0

/-- One-market registry with a registered perp market (lot sizes 2 / 3). -/
def wGroupP : EntropyGroup where
  numOracles := 1
  spotMarkets := fun _ => ⟨9/10, 11/10, 95/100, 105/100⟩
  perpMarkets := fun _ => ⟨true, 9/10, 11/10, 95/100, 105/100, 2, 3⟩
  tokenDecimals := fun _ => 0

/-- Price 10 for every oracle, deposit/borrow indices 1. -/
def wCache : EntropyCache where
  priceCache := fun _ => 10
  rootBankCache := fun _ => ⟨1, 1⟩

/-- Snapshot of the spec's worst-case-selection test: quote deposit 1000,
open orders with quoteLocked = 500 and the other fields zero. -/
def wAccDep : EntropyAccount where
  deposits := fun i => if i = QUOTE_INDEX then 1000 else 0
  borrows := fun _ => 0
  inMarginBasket := fun _ => true
  spotOpenOrdersAccounts := fun _ => some ⟨0, 500, 0, 0⟩
  perpAccounts := fun _ => ⟨0, 0, 0, 0, 0, 0⟩
  beingLiquidated := false

/-- Snapshot with a quote deposit of 1000 and a borrow of 5 of token 0,
no open orders, no perp exposure. -/
def wAccBor : EntropyAccount where
  deposits := fun i => if i = QUOTE_INDEX then 1000 else 0
  borrows := fun i => if i = 0 then 5 else 0
  inMarginBasket := fun _ => false
  spotOpenOrdersAccounts := fun _ => none
  perpAccounts := fun _ => ⟨0, 0, 0, 0, 0, 0⟩
  beingLiquidated := false

/-- Snapshot with a quote deposit of 1000 and a perp position:
basePosition 4, takerBase 1, takerQuote 2, bids 3, asks 1, quote position 7. -/
def wAccPerp : EntropyAccount where
  deposits := fun i => if i = QUOTE_INDEX then 1000 else 0
  borrows := fun _ => 0
  inMarginBasket := fun _ => false
  spotOpenOrdersAccounts := fun _ => none
  perpAccounts := fun _ => ⟨4, 1, 2, 3, 1, 7⟩
  beingLiquidated := false

/-- Registry with a degenerate spot market: Init asset weight 2 ≥ 1. -/
def c6Group : EntropyGroup where
  numOracles := 1
  spotMarkets := fun _ => ⟨2, 11/10, 95/100, 105/100⟩
  perpMarkets := fun _ => ⟨false, 1, 1, 1, 1, 1, 1⟩
  tokenDecimals := fun _ => 0

/-- Registry for the monotonicity counterexample: spot asset weight 1/10 and
spot liab weight 1 in both regimes; no perp market. -/
def c7Group : EntropyGroup where
  numOracles := 1
  spotMarkets := fun _ => ⟨1/10, 1, 1/10, 1⟩
  perpMarkets := fun _ => ⟨false, 1, 1, 1, 1, 1, 1⟩
  tokenDecimals := fun _ => 0

/-- Price 1, indices 1. -/
def c7Cache : EntropyCache where
  priceCache := fun _ => 1
  rootBankCache := fun _ => ⟨1, 1⟩

/-- Borrow of 9 of token 0 against resting bids locking 19 quote. -/
def c7A1 : EntropyAccount where
  deposits := fun _ => 0
  borrows := fun i => if i = 0 then 9 else 0
  inMarginBasket := fun _ => true
  spotOpenOrdersAccounts := fun _ => some ⟨0, 19, 0, 0⟩
  perpAccounts := fun _ => ⟨0, 0, 0, 0, 0, 0⟩
  beingLiquidated := false

/-- The same snapshot with the token-0 borrow increased from 9 to 11. -/
def c7A2 : EntropyAccount :=
  { c7A1 with borrows := Function.update c7A1.borrows 0 11 }

/-- Borrow of 5 of token 0, no open orders, no perp exposure. -/
def c7A3 : EntropyAccount where
  deposits := fun _ => 0
  borrows := fun i => if i = 0 then 5 else 0
  inMarginBasket := fun _ => false
  spotOpenOrdersAccounts := fun _ => none
  perpAccounts := fun _ => ⟨0, 0, 0, 0, 0, 0⟩
  beingLiquidated := false

/-- The all-zero snapshot: no deposits, borrows, open orders or perp
positions, no flags set. -/
def zeroAccount : EntropyAccount where
  deposits := fun _ => 0
  borrows := fun _ => 0
  inMarginBasket := fun _ => false
  spotOpenOrdersAccounts := fun _ => none
  perpAccounts := fun _ => ⟨0, 0, 0, 0, 0, 0⟩
  beingLiquidated := false

/-! ## Helper lemmas -/

theorem getHealthComponents_spot_lt (g : EntropyGroup) (c : EntropyCache)
    (a : EntropyAccount) {i : ℕ} (hi : i < g.numOracles) :
    (getHealthComponents g c a).spot i = (resolveSpot g c a i).1 := by
  simp [getHealthComponents, hi]

theorem getHealthComponents_perps_lt (g : EntropyGroup) (c : EntropyCache)
    (a : EntropyAccount) {i : ℕ} (hi : i < g.numOracles) :
    (getHealthComponents g c a).perps i = (resolvePerp g c a i).1 := by
  simp [getHealthComponents, hi]

theorem getNet_zeroAccount (bank : RootBankCache) (i : ℕ) :
    getNet zeroAccount bank i = 0 := by
  simp [getNet, zeroAccount]

theorem resolveSpot_zeroAccount (g : EntropyGroup) (c : EntropyCache) (i : ℕ) :
    resolveSpot g c zeroAccount i = (0, 0) := by
  simp [resolveSpot, resolveSpotCore, getNet, zeroAccount]

theorem resolvePerp_zeroAccount (g : EntropyGroup) (c : EntropyCache) (i : ℕ) :
    resolvePerp g c zeroAccount i = (0, 0) := by
  by_cases h : (g.perpMarkets i).present <;>
    simp [resolvePerp, resolvePerpCore, getQuotePosition, zeroAccount, h]

theorem resolveSpotCore_some_true (price baseNet : ℚ) (oo : OpenOrdersSplit) :
    resolveSpotCore price baseNet (some oo) true =
      if |baseNet + oo.baseFree| <
          |baseNet + oo.quoteLocked / price + oo.baseFree + oo.baseLocked| then
        (baseNet + oo.quoteLocked / price + oo.baseFree + oo.baseLocked, oo.quoteFree)
      else
        (baseNet + oo.baseFree, oo.baseLocked * price + oo.quoteFree + oo.quoteLocked) :=
  rfl

theorem resolveSpotCore_absent (price baseNet : ℚ)
    (openOrders : Option OpenOrdersSplit) (inBasket : Bool)
    (h : openOrders = none ∨ inBasket = false) :
    resolveSpotCore price baseNet openOrders inBasket = (baseNet, 0) := by
  rcases h with h | h
  · subst h
    cases inBasket <;> rfl
  · subst h
    cases openOrders <;> rfl

theorem resolvePerpCore_present (price : ℚ) (pm : PerpMarketInfo)
    (pa : PerpAccountRec) (h : pm.present = true) :
    resolvePerpCore price pm pa =
      if |(((pa.basePosition + pa.takerBase) * pm.baseLotSize : ℤ) : ℚ) -
            ((pa.asksQuantity * pm.baseLotSize : ℤ) : ℚ)| <
          |(((pa.basePosition + pa.takerBase) * pm.baseLotSize : ℤ) : ℚ) +
            ((pa.bidsQuantity * pm.baseLotSize : ℤ) : ℚ)| then
        ((((pa.basePosition + pa.takerBase) * pm.baseLotSize : ℤ) : ℚ) +
            ((pa.bidsQuantity * pm.baseLotSize : ℤ) : ℚ),
          getQuotePosition pa + ((pa.takerQuote * pm.quoteLotSize : ℤ) : ℚ) -
            ((pa.bidsQuantity * pm.baseLotSize : ℤ) : ℚ) * price)
      else
        ((((pa.basePosition + pa.takerBase) * pm.baseLotSize : ℤ) : ℚ) -
            ((pa.asksQuantity * pm.baseLotSize : ℤ) : ℚ),
          getQuotePosition pa + ((pa.takerQuote * pm.quoteLotSize : ℤ) : ℚ) +
            ((pa.asksQuantity * pm.baseLotSize : ℤ) : ℚ) * price) := by
  unfold resolvePerpCore
  rw [h]
  rfl

theorem resolvePerpCore_not_present (price : ℚ) (pm : PerpMarketInfo)
    (pa : PerpAccountRec) (h : pm.present = false) :
    resolvePerpCore price pm pa = (0, 0) := by
  unfold resolvePerpCore
  rw [h]
  rfl

theorem resolvePerpCore_no_orders (price : ℚ) (pm : PerpMarketInfo)
    (pa : PerpAccountRec) (hpres : pm.present = true)
    (hb : pa.bidsQuantity = 0) (ha : pa.asksQuantity = 0) :
    resolvePerpCore price pm pa =
      ((((pa.basePosition + pa.takerBase) * pm.baseLotSize : ℤ) : ℚ),
        getQuotePosition pa + ((pa.takerQuote * pm.quoteLotSize : ℤ) : ℚ)) := by
  rw [resolvePerpCore_present price pm pa hpres, hb, ha]
  simp

theorem getHealth_eq_sum (g : EntropyGroup) (c : EntropyCache)
    (a : EntropyAccount) (t : HealthType) :
    getHealth g c a t = getNet a (c.rootBankCache QUOTE_INDEX) QUOTE_INDEX +
      ∑ i in Finset.range g.numOracles, marketHealthTerm g c a t i := by
  simp only [getHealth, getHealthFromComponents, getHealthComponents,
    marketHealthTerm]
  rw [add_assoc]
  congr 1
  rw [← Finset.sum_add_distrib]
  refine Finset.sum_congr rfl fun i hi => ?_
  have hi' := Finset.mem_range.mp hi
  simp only [if_pos hi']

theorem getNet_update_borrows_ne (a : EntropyAccount) (bank : RootBankCache)
    (j : ℕ) (v : ℚ) {i : ℕ} (hij : i ≠ j) :
    getNet { a with borrows := Function.update a.borrows j v } bank i =
      getNet a bank i := by
  simp [getNet, Function.update_noteq hij]

theorem resolveSpot_update_borrows_ne (g : EntropyGroup) (c : EntropyCache)
    (a : EntropyAccount) (j : ℕ) (v : ℚ) {i : ℕ} (hij : i ≠ j) :
    resolveSpot g c { a with borrows := Function.update a.borrows j v } i =
      resolveSpot g c a i := by
  unfold resolveSpot
  rw [getNet_update_borrows_ne a _ j v hij]

theorem resolvePerp_update_borrows (g : EntropyGroup) (c : EntropyCache)
    (a : EntropyAccount) (j : ℕ) (v : ℚ) (i : ℕ) :
    resolvePerp g c { a with borrows := Function.update a.borrows j v } i =
      resolvePerp g c a i :=
  rfl

theorem getNet_update_borrows_self (a : EntropyAccount) (bank : RootBankCache)
    (j : ℕ) (δ : ℚ) :
    getNet { a with borrows := Function.update a.borrows j (a.borrows j + δ) }
      bank j = getNet a bank j - δ * bank.borrowIndex := by
  simp only [getNet, Function.update_same]
  ring

theorem resolveSpot_absent (g : EntropyGroup) (c : EntropyCache)
    (a : EntropyAccount) (j : ℕ)
    (hoo : a.spotOpenOrdersAccounts j = none ∨ a.inMarginBasket j = false) :
    resolveSpot g c a j = (getNet a (c.rootBankCache j) j, 0) := by
  unfold resolveSpot
  rw [resolveSpotCore_absent _ _ _ _ hoo]

theorem resolveSpot_update_borrows_self (g : EntropyGroup) (c : EntropyCache)
    (a : EntropyAccount) (j : ℕ) (δ : ℚ)
    (hoo : a.spotOpenOrdersAccounts j = none ∨ a.inMarginBasket j = false) :
    resolveSpot g c { a with borrows := Function.update a.borrows j (a.borrows j + δ) } j =
      (getNet a (c.rootBankCache j) j - δ * (c.rootBankCache j).borrowIndex, 0) := by
  unfold resolveSpot
  rw [resolveSpotCore_absent _ _ _ _ hoo, getNet_update_borrows_self]

theorem resolveSpot_update_perp (g : EntropyGroup) (c : EntropyCache)
    (a : EntropyAccount) (j : ℕ) (pa' : PerpAccountRec) (i : ℕ) :
    resolveSpot g c { a with perpAccounts := Function.update a.perpAccounts j pa' } i =
      resolveSpot g c a i :=
  rfl

theorem resolvePerp_update_perp_ne (g : EntropyGroup) (c : EntropyCache)
    (a : EntropyAccount) (j : ℕ) (pa' : PerpAccountRec) {i : ℕ} (hij : i ≠ j) :
    resolvePerp g c { a with perpAccounts := Function.update a.perpAccounts j pa' } i =
      resolvePerp g c a i := by
  unfold resolvePerp
  rw [show ({ a with perpAccounts := Function.update a.perpAccounts j pa' } :
      EntropyAccount).perpAccounts i = a.perpAccounts i from
    Function.update_noteq hij pa' a.perpAccounts]

theorem resolvePerp_no_orders (g : EntropyGroup) (c : EntropyCache)
    (a : EntropyAccount) (j : ℕ) (hpres : (g.perpMarkets j).present = true)
    (hbq : (a.perpAccounts j).bidsQuantity = 0)
    (haq : (a.perpAccounts j).asksQuantity = 0) :
    resolvePerp g c a j =
      (((((a.perpAccounts j).basePosition + (a.perpAccounts j).takerBase) *
          (g.perpMarkets j).baseLotSize : ℤ) : ℚ),
        getQuotePosition (a.perpAccounts j) +
          (((a.perpAccounts j).takerQuote * (g.perpMarkets j).quoteLotSize : ℤ) : ℚ)) := by
  unfold resolvePerp
  rw [resolvePerpCore_no_orders _ _ _ hpres hbq haq]

theorem resolvePerp_update_base_self (g : EntropyGroup) (c : EntropyCache)
    (a : EntropyAccount) (j : ℕ) (δ : ℤ)
    (hpres : (g.perpMarkets j).present = true)
    (hbq : (a.perpAccounts j).bidsQuantity = 0)
    (haq : (a.perpAccounts j).asksQuantity = 0) :
    resolvePerp g c
      { a with
        perpAccounts :=
          Function.update a.perpAccounts j (decBasePosition (a.perpAccounts j) δ) }
      j =
      (((((a.perpAccounts j).basePosition - δ + (a.perpAccounts j).takerBase) *
          (g.perpMarkets j).baseLotSize : ℤ) : ℚ),
        getQuotePosition (a.perpAccounts j) +
          (((a.perpAccounts j).takerQuote * (g.perpMarkets j).quoteLotSize : ℤ) : ℚ)) := by
  unfold resolvePerp
  rw [show ({ a with
        perpAccounts :=
          Function.update a.perpAccounts j (decBasePosition (a.perpAccounts j) δ) } :
      EntropyAccount).perpAccounts j = decBasePosition (a.perpAccounts j) δ from
    Function.update_same j _ a.perpAccounts]
  rw [resolvePerpCore_no_orders (c.priceCache j) (g.perpMarkets j)
    (decBasePosition (a.perpAccounts j) δ) hpres hbq haq]
  rfl

theorem getNet_update_perp (a : EntropyAccount) (bank : RootBankCache)
    (j : ℕ) (pa' : PerpAccountRec) (i : ℕ) :
    getNet { a with perpAccounts := Function.update a.perpAccounts j pa' }
      bank i = getNet a bank i :=
  rfl

/-! ## Claim theorems -/

/-- C1: for every market index with an open-orders record and the
margin-basket flag set, the resolver sets spot[i] to whichever of
bidsCase = baseNet + quoteLocked/price + baseFree + baseLocked and
asksCase = baseNet + baseFree has the larger absolute value, adding
quoteFree to quote in the bids case and baseLocked×price + quoteFree +
quoteLocked in the asks case; when the record is absent or the flag unset,
spot[i] = baseNet with no quote adjustment. The quote scalar is the net
quote balance plus the per-market adjustments. -/
theorem spot_resolution_cases (g : EntropyGroup) (c : EntropyCache)
    (a : EntropyAccount) (i : ℕ) (hi : i < g.numOracles) :
    ((getHealthComponents g c a).quote =
        getNet a (c.rootBankCache QUOTE_INDEX) QUOTE_INDEX +
          ∑ j in Finset.range g.numOracles,
            ((resolveSpot g c a j).2 + (resolvePerp g c a j).2)) ∧
    (∀ oo : OpenOrdersSplit, a.spotOpenOrdersAccounts i = some oo →
      a.inMarginBasket i = true →
      ((getHealthComponents g c a).spot i =
          getNet a (c.rootBankCache i) i + oo.quoteLocked / c.priceCache i +
            oo.baseFree + oo.baseLocked ∨
        (getHealthComponents g c a).spot i =
          getNet a (c.rootBankCache i) i + oo.baseFree) ∧
      |(getHealthComponents g c a).spot i| =
        max |getNet a (c.rootBankCache i) i + oo.quoteLocked / c.priceCache i +
              oo.baseFree + oo.baseLocked|
          |getNet a (c.rootBankCache i) i + oo.baseFree| ∧
      (|getNet a (c.rootBankCache i) i + oo.baseFree| <
          |getNet a (c.rootBankCache i) i + oo.quoteLocked / c.priceCache i +
            oo.baseFree + oo.baseLocked| →
        (getHealthComponents g c a).spot i =
          getNet a (c.rootBankCache i) i + oo.quoteLocked / c.priceCache i +
            oo.baseFree + oo.baseLocked ∧
        (resolveSpot g c a i).2 = oo.quoteFree) ∧
      (¬ |getNet a (c.rootBankCache i) i + oo.baseFree| <
          |getNet a (c.rootBankCache i) i + oo.quoteLocked / c.priceCache i +
            oo.baseFree + oo.baseLocked| →
        (getHealthComponents g c a).spot i =
          getNet a (c.rootBankCache i) i + oo.baseFree ∧
        (resolveSpot g c a i).2 =
          oo.baseLocked * c.priceCache i + oo.quoteFree + oo.quoteLocked)) ∧
    (a.spotOpenOrdersAccounts i = none ∨ a.inMarginBasket i = false →
      (getHealthComponents g c a).spot i = getNet a (c.rootBankCache i) i ∧
      (resolveSpot g c a i).2 = 0) := by
  refine ⟨rfl, ?_, ?_⟩
  · intro oo hoo hb
    rw [getHealthComponents_spot_lt g c a hi]
    unfold resolveSpot
    rw [hoo, hb, resolveSpotCore_some_true]
    by_cases hlt : |getNet a (c.rootBankCache i) i + oo.baseFree| <
        |getNet a (c.rootBankCache i) i + oo.quoteLocked / c.priceCache i +
          oo.baseFree + oo.baseLocked|
    · rw [if_pos hlt]
      exact ⟨Or.inl rfl, (max_eq_left (le_of_lt hlt)).symm,
        fun _ => ⟨rfl, rfl⟩, fun h => absurd hlt h⟩
    · rw [if_neg hlt]
      exact ⟨Or.inr rfl, (max_eq_right (not_lt.mp hlt)).symm,
        fun h => absurd h hlt, fun _ => ⟨rfl, rfl⟩⟩
  · intro h
    rw [getHealthComponents_spot_lt g c a hi]
    unfold resolveSpot
    rw [resolveSpotCore_absent _ _ _ _ h]
    exact ⟨rfl, rfl⟩

/-- C1 witness: on the worst-case-selection snapshot the bids case is
selected for market 0 (spot = baseNet + quoteLocked/price + baseFree +
baseLocked) and the quote adjustment is quoteFree = 0. -/
theorem spot_resolution_cases_witness :
    0 < wGroupS.numOracles ∧
      (getHealthComponents wGroupS wCache wAccDep).spot 0 =
        getNet wAccDep (wCache.rootBankCache 0) 0 + 500 / wCache.priceCache 0 +
          0 + 0 ∧
      (resolveSpot wGroupS wCache wAccDep 0).2 = 0 := by
  have h0 : (0 : ℕ) < wGroupS.numOracles := by norm_num [wGroupS]
  have h := (spot_resolution_cases wGroupS wCache wAccDep 0 h0).2.1
    ⟨0, 500, 0, 0⟩ rfl rfl
  have hb := h.2.2.1 (by norm_num [getNet, wAccDep, wCache, QUOTE_INDEX])
  exact ⟨h0, hb.1, hb.2⟩

/-- C2: for every market index with a registered perp market, the resolver
sets perps[i] to the larger-magnitude of
bidsBaseNet = (basePosition+takerBase)×baseLotSize + bidsQuantity×baseLotSize
and asksBaseNet = (basePosition+takerBase)×baseLotSize − asksQuantity×baseLotSize,
adjusting quote by fundingAdjustedQuotePosition + takerQuote×quoteLotSize −
bidsQuantity×baseLotSize×price in the bids case and by … + asksQuantity×
baseLotSize×price in the asks case; with no registered perp market,
perps[i] = 0 with no quote adjustment. -/
theorem perp_resolution_cases (g : EntropyGroup) (c : EntropyCache)
    (a : EntropyAccount) (i : ℕ) (hi : i < g.numOracles) :
    ((g.perpMarkets i).present = true →
      (((getHealthComponents g c a).perps i =
          ((((a.perpAccounts i).basePosition + (a.perpAccounts i).takerBase) *
              (g.perpMarkets i).baseLotSize : ℤ) : ℚ) +
            (((a.perpAccounts i).bidsQuantity * (g.perpMarkets i).baseLotSize : ℤ) : ℚ) ∨
        (getHealthComponents g c a).perps i =
          ((((a.perpAccounts i).basePosition + (a.perpAccounts i).takerBase) *
              (g.perpMarkets i).baseLotSize : ℤ) : ℚ) -
            (((a.perpAccounts i).asksQuantity * (g.perpMarkets i).baseLotSize : ℤ) : ℚ)) ∧
      |(getHealthComponents g c a).perps i| =
        max |((((a.perpAccounts i).basePosition + (a.perpAccounts i).takerBase) *
              (g.perpMarkets i).baseLotSize : ℤ) : ℚ) +
            (((a.perpAccounts i).bidsQuantity * (g.perpMarkets i).baseLotSize : ℤ) : ℚ)|
          |((((a.perpAccounts i).basePosition + (a.perpAccounts i).takerBase) *
              (g.perpMarkets i).baseLotSize : ℤ) : ℚ) -
            (((a.perpAccounts i).asksQuantity * (g.perpMarkets i).baseLotSize : ℤ) : ℚ)| ∧
      (|((((a.perpAccounts i).basePosition + (a.perpAccounts i).takerBase) *
            (g.perpMarkets i).baseLotSize : ℤ) : ℚ) -
          (((a.perpAccounts i).asksQuantity * (g.perpMarkets i).baseLotSize : ℤ) : ℚ)| <
        |((((a.perpAccounts i).basePosition + (a.perpAccounts i).takerBase) *
            (g.perpMarkets i).baseLotSize : ℤ) : ℚ) +
          (((a.perpAccounts i).bidsQuantity * (g.perpMarkets i).baseLotSize : ℤ) : ℚ)| →
        (getHealthComponents g c a).perps i =
          ((((a.perpAccounts i).basePosition + (a.perpAccounts i).takerBase) *
              (g.perpMarkets i).baseLotSize : ℤ) : ℚ) +
            (((a.perpAccounts i).bidsQuantity * (g.perpMarkets i).baseLotSize : ℤ) : ℚ) ∧
        (resolvePerp g c a i).2 =
          getQuotePosition (a.perpAccounts i) +
            (((a.perpAccounts i).takerQuote * (g.perpMarkets i).quoteLotSize : ℤ) : ℚ) -
            (((a.perpAccounts i).bidsQuantity * (g.perpMarkets i).baseLotSize : ℤ) : ℚ) *
              c.priceCache i) ∧
      (¬ |((((a.perpAccounts i).basePosition + (a.perpAccounts i).takerBase) *
            (g.perpMarkets i).baseLotSize : ℤ) : ℚ) -
          (((a.perpAccounts i).asksQuantity * (g.perpMarkets i).baseLotSize : ℤ) : ℚ)| <
        |((((a.perpAccounts i).basePosition + (a.perpAccounts i).takerBase) *
            (g.perpMarkets i).baseLotSize : ℤ) : ℚ) +
          (((a.perpAccounts i).bidsQuantity * (g.perpMarkets i).baseLotSize : ℤ) : ℚ)| →
        (getHealthComponents g c a).perps i =
          ((((a.perpAccounts i).basePosition + (a.perpAccounts i).takerBase) *
              (g.perpMarkets i).baseLotSize : ℤ) : ℚ) -
            (((a.perpAccounts i).asksQuantity * (g.perpMarkets i).baseLotSize : ℤ) : ℚ) ∧
        (resolvePerp g c a i).2 =
          getQuotePosition (a.perpAccounts i) +
            (((a.perpAccounts i).takerQuote * (g.perpMarkets i).quoteLotSize : ℤ) : ℚ) +
            (((a.perpAccounts i).asksQuantity * (g.perpMarkets i).baseLotSize : ℤ) : ℚ) *
              c.priceCache i))) ∧
    ((g.perpMarkets i).present = false →
      (getHealthComponents g c a).perps i = 0 ∧ (resolvePerp g c a i).2 = 0) := by
  constructor
  · intro hpres
    rw [getHealthComponents_perps_lt g c a hi]
    unfold resolvePerp
    rw [resolvePerpCore_present _ _ _ hpres]
    by_cases hlt : |((((a.perpAccounts i).basePosition + (a.perpAccounts i).takerBase) *
          (g.perpMarkets i).baseLotSize : ℤ) : ℚ) -
        (((a.perpAccounts i).asksQuantity * (g.perpMarkets i).baseLotSize : ℤ) : ℚ)| <
        |((((a.perpAccounts i).basePosition + (a.perpAccounts i).takerBase) *
          (g.perpMarkets i).baseLotSize : ℤ) : ℚ) +
        (((a.perpAccounts i).bidsQuantity * (g.perpMarkets i).baseLotSize : ℤ) : ℚ)|
    · rw [if_pos hlt]
      exact ⟨Or.inl rfl, (max_eq_left (le_of_lt hlt)).symm,
        fun _ => ⟨rfl, rfl⟩, fun h => absurd hlt h⟩
    · rw [if_neg hlt]
      exact ⟨Or.inr rfl, (max_eq_right (not_lt.mp hlt)).symm,
        fun h => absurd h hlt, fun _ => ⟨rfl, rfl⟩⟩
  · intro hpres
    rw [getHealthComponents_perps_lt g c a hi]
    unfold resolvePerp
    rw [resolvePerpCore_not_present _ _ _ hpres]
    exact ⟨rfl, rfl⟩

/-- C2 witness: on the perp snapshot (basePosition 4, takerBase 1,
bids 3, asks 1, lot sizes 2/3, price 10) the bids case is selected:
perps[0] = 16 and the quote adjustment is 7 + 6 − 60 = −47. -/
theorem perp_resolution_cases_witness :
    0 < wGroupP.numOracles ∧ (wGroupP.perpMarkets 0).present = true ∧
      (getHealthComponents wGroupP wCache wAccPerp).perps 0 = 16 ∧
      (resolvePerp wGroupP wCache wAccPerp 0).2 = -47 := by
  have h0 : (0 : ℕ) < wGroupP.numOracles := by norm_num [wGroupP]
  have h := ((perp_resolution_cases wGroupP wCache wAccPerp 0 h0).1 rfl).2.2.1
    (by norm_num [wAccPerp, wGroupP])
  refine ⟨h0, rfl, ?_, ?_⟩
  · rw [h.1]
    norm_num [wAccPerp, wGroupP]
  · rw [h.2]
    norm_num [getQuotePosition, wAccPerp, wGroupP, wCache]

/-- C3: isLiquidatable() returns true if and only if (the beingLiquidated
flag is set and health(Init) < 0) or health(Maint) < 0. -/
theorem isLiquidatable_iff (g : EntropyGroup) (c : EntropyCache)
    (a : EntropyAccount) :
    isLiquidatable g c a = true ↔
      (a.beingLiquidated = true ∧ getHealth g c a .Init < 0) ∨
        getHealth g c a .Maint < 0 := by
  simp [isLiquidatable]

/-- C4: healthRatio equals (assets/liabs − 1) × 100 when the weighted liabs
total is strictly positive, and equals exactly 100 when liabs = 0. -/
theorem healthRatio_cases (g : EntropyGroup) (c : EntropyCache)
    (a : EntropyAccount) (t : HealthType) :
    (0 < (getWeightedAssetsLiabsVals g c (getHealthComponents g c a).spot
        (getHealthComponents g c a).perps (getHealthComponents g c a).quote t).2 →
      getHealthRatio g c a t =
        ((getWeightedAssetsLiabsVals g c (getHealthComponents g c a).spot
            (getHealthComponents g c a).perps (getHealthComponents g c a).quote t).1 /
          (getWeightedAssetsLiabsVals g c (getHealthComponents g c a).spot
            (getHealthComponents g c a).perps (getHealthComponents g c a).quote t).2 - 1) * 100) ∧
    ((getWeightedAssetsLiabsVals g c (getHealthComponents g c a).spot
        (getHealthComponents g c a).perps (getHealthComponents g c a).quote t).2 = 0 →
      getHealthRatio g c a t = 100) := by
  constructor
  · intro h
    simp only [getHealthRatio, if_pos h]
  · intro h
    simp [getHealthRatio, h]

/-- C4 witness: a snapshot with a borrow so the liabs total is positive,
where the ratio takes the (assets/liabs − 1) × 100 form. -/
theorem healthRatio_cases_witness :
    0 < (getWeightedAssetsLiabsVals wGroupS wCache
        (getHealthComponents wGroupS wCache wAccBor).spot
        (getHealthComponents wGroupS wCache wAccBor).perps
        (getHealthComponents wGroupS wCache wAccBor).quote .Init).2 ∧
      getHealthRatio wGroupS wCache wAccBor .Init =
        ((getWeightedAssetsLiabsVals wGroupS wCache
            (getHealthComponents wGroupS wCache wAccBor).spot
            (getHealthComponents wGroupS wCache wAccBor).perps
            (getHealthComponents wGroupS wCache wAccBor).quote .Init).1 /
          (getWeightedAssetsLiabsVals wGroupS wCache
            (getHealthComponents wGroupS wCache wAccBor).spot
            (getHealthComponents wGroupS wCache wAccBor).perps
            (getHealthComponents wGroupS wCache wAccBor).quote .Init).2 - 1) * 100 := by
  have h : 0 < (getWeightedAssetsLiabsVals wGroupS wCache
      (getHealthComponents wGroupS wCache wAccBor).spot
      (getHealthComponents wGroupS wCache wAccBor).perps
      (getHealthComponents wGroupS wCache wAccBor).quote .Init).2 := by
    norm_num [getWeightedAssetsLiabsVals, getHealthComponents, resolveSpot,
      resolveSpotCore, resolvePerp, resolvePerpCore, getNet, getWeights,
      getQuotePosition, wGroupS, wCache, wAccBor, QUOTE_INDEX,
      Finset.sum_range_succ]
  exact ⟨h, (healthRatio_cases wGroupS wCache wAccBor .Init).1 h⟩

/-- C5: getLiquidationPrice returns none exactly when the weighted
target-market exposure is zero or the solved price is negative, and
otherwise returns the solved price scaled by
10^(targetDecimals − quoteDecimals); being a total function it never throws. -/
theorem liquidationPrice_characterization (g : EntropyGroup) (c : EntropyCache)
    (a : EntropyAccount) (oracleIndex : ℕ) :
    (getLiquidationPrice g c a oracleIndex = none ↔
      liqWeightedAsset g c a oracleIndex = 0 ∨
        liqOtherHealth g c a oracleIndex / liqWeightedAsset g c a oracleIndex < 0) ∧
    (liqWeightedAsset g c a oracleIndex ≠ 0 →
      ¬ liqOtherHealth g c a oracleIndex / liqWeightedAsset g c a oracleIndex < 0 →
      getLiquidationPrice g c a oracleIndex =
        some (liqOtherHealth g c a oracleIndex / liqWeightedAsset g c a oracleIndex *
          ((10 : ℚ) ^ g.tokenDecimals oracleIndex /
            (10 : ℚ) ^ g.tokenDecimals QUOTE_INDEX))) := by
  constructor
  · by_cases h1 : liqWeightedAsset g c a oracleIndex = 0
    · simp [getLiquidationPrice, h1]
    · by_cases h2 : liqOtherHealth g c a oracleIndex /
          liqWeightedAsset g c a oracleIndex < 0
      · simp [getLiquidationPrice, h1, h2]
      · simp [getLiquidationPrice, h1, h2]
  · intro h1 h2
    simp [getLiquidationPrice, h1, h2]

/-- C5 witness: a snapshot whose single market has a pure borrow exposure,
so the weighted exposure is nonzero, the solved price is nonnegative, and a
liquidation price is returned. -/
theorem liquidationPrice_characterization_witness :
    liqWeightedAsset wGroupS wCache wAccBor 0 ≠ 0 ∧
      ¬ liqOtherHealth wGroupS wCache wAccBor 0 / liqWeightedAsset wGroupS wCache wAccBor 0 < 0 ∧
      getLiquidationPrice wGroupS wCache wAccBor 0 =
        some (liqOtherHealth wGroupS wCache wAccBor 0 / liqWeightedAsset wGroupS wCache wAccBor 0 *
          ((10 : ℚ) ^ wGroupS.tokenDecimals 0 /
            (10 : ℚ) ^ wGroupS.tokenDecimals QUOTE_INDEX)) := by
  have h1 : liqWeightedAsset wGroupS wCache wAccBor 0 ≠ 0 := by
    norm_num [liqWeightedAsset, getHealthComponents, resolveSpot, resolveSpotCore,
      resolvePerp, resolvePerpCore, getNet, getWeights, spotWeightFor,
      perpWeightFor, wGroupS, wCache, wAccBor, QUOTE_INDEX, Finset.sum_range_succ]
  have h2 : ¬ liqOtherHealth wGroupS wCache wAccBor 0 /
      liqWeightedAsset wGroupS wCache wAccBor 0 < 0 := by
    norm_num [liqOtherHealth, liqWeightedAsset, getHealthComponents, resolveSpot,
      resolveSpotCore, resolvePerp, resolvePerpCore, getNet, getWeights,
      spotWeightFor, perpWeightFor, getQuotePosition, wGroupS, wCache, wAccBor,
      QUOTE_INDEX, Finset.sum_range_succ]
  exact ⟨h1, h2, (liquidationPrice_characterization wGroupS wCache wAccBor 0).2 h1 h2⟩

/-- C8: on the spec's worst-case-selection snapshot (quoteLocked 500,
price 10, quote deposit 1000, spot Init asset weight 9/10) the resolver
selects the bids case, spot[0] = 50, quote stays 1000, and
health(Init) = 1450 exactly. -/
theorem worst_case_selection_example :
    (getHealthComponents wGroupS wCache wAccDep).spot 0 = 50 ∧
      (getHealthComponents wGroupS wCache wAccDep).quote = 1000 ∧
      getHealth wGroupS wCache wAccDep .Init = 1450 := by
  norm_num [getHealth, getHealthComponents, getHealthFromComponents, resolveSpot,
    resolveSpotCore, resolvePerp, resolvePerpCore, getNet, getWeights,
    spotWeightFor, perpWeightFor, getQuotePosition, wGroupS, wCache, wAccDep,
    QUOTE_INDEX, Finset.sum_range_succ]

theorem weighted_vals_nonneg_aux (g : EntropyGroup) (c : EntropyCache)
    (spot perps : ℕ → ℚ) (quote : ℚ) (t : HealthType)
    (hp : ∀ i, i < g.numOracles → 0 ≤ c.priceCache i)
    (hw : ∀ i, i < g.numOracles →
      0 ≤ (getWeights g i t).spotAssetWeight ∧
      0 ≤ (getWeights g i t).spotLiabWeight ∧
      0 ≤ (getWeights g i t).perpAssetWeight ∧
      0 ≤ (getWeights g i t).perpLiabWeight) :
    0 ≤ (getWeightedAssetsLiabsVals g c spot perps quote t).1 ∧
      0 ≤ (getWeightedAssetsLiabsVals g c spot perps quote t).2 := by
  constructor
  · refine add_nonneg ?_ (Finset.sum_nonneg ?_)
    · split_ifs with h
      · exact le_of_lt h
      · exact le_refl 0
    · intro i hi
      have hi' := Finset.mem_range.mp hi
      refine add_nonneg ?_ ?_ <;> split_ifs with h
      · exact mul_nonneg (mul_nonneg (le_of_lt h) (hp i hi')) (hw i hi').1
      · exact le_refl 0
      · exact mul_nonneg (mul_nonneg (le_of_lt h) (hp i hi')) (hw i hi').2.2.1
      · exact le_refl 0
  · refine add_nonneg ?_ (Finset.sum_nonneg ?_)
    · split_ifs with h
      · exact le_refl 0
      · linarith [not_lt.mp h]
    · intro i hi
      have hi' := Finset.mem_range.mp hi
      refine add_nonneg ?_ ?_ <;> split_ifs with h
      · exact le_refl 0
      · exact mul_nonneg (mul_nonneg (by linarith [not_lt.mp h]) (hp i hi'))
          (hw i hi').2.1
      · exact le_refl 0
      · exact mul_nonneg (mul_nonneg (by linarith [not_lt.mp h]) (hp i hi'))
          (hw i hi').2.2.2

/-- C10: with nonnegative oracle prices and risk weights, the assets and
liabs totals of getWeightedAssetsLiabsVals on the resolved components are
both nonnegative, and consequently getHealthRatio is never below −100. -/
theorem weighted_vals_nonneg (g : EntropyGroup) (c : EntropyCache)
    (a : EntropyAccount) (t : HealthType)
    (hp : ∀ i, i < g.numOracles → 0 ≤ c.priceCache i)
    (hw : ∀ i, i < g.numOracles →
      0 ≤ (getWeights g i t).spotAssetWeight ∧
      0 ≤ (getWeights g i t).spotLiabWeight ∧
      0 ≤ (getWeights g i t).perpAssetWeight ∧
      0 ≤ (getWeights g i t).perpLiabWeight) :
    0 ≤ (getWeightedAssetsLiabsVals g c (getHealthComponents g c a).spot
        (getHealthComponents g c a).perps (getHealthComponents g c a).quote t).1 ∧
      0 ≤ (getWeightedAssetsLiabsVals g c (getHealthComponents g c a).spot
        (getHealthComponents g c a).perps (getHealthComponents g c a).quote t).2 ∧
      -100 ≤ getHealthRatio g c a t := by
  obtain ⟨ha, hl⟩ := weighted_vals_nonneg_aux g c (getHealthComponents g c a).spot
    (getHealthComponents g c a).perps (getHealthComponents g c a).quote t hp hw
  refine ⟨ha, hl, ?_⟩
  by_cases h : 0 < (getWeightedAssetsLiabsVals g c (getHealthComponents g c a).spot
      (getHealthComponents g c a).perps (getHealthComponents g c a).quote t).2
  · have hdiv : 0 ≤ (getWeightedAssetsLiabsVals g c (getHealthComponents g c a).spot
        (getHealthComponents g c a).perps (getHealthComponents g c a).quote t).1 /
        (getWeightedAssetsLiabsVals g c (getHealthComponents g c a).spot
        (getHealthComponents g c a).perps (getHealthComponents g c a).quote t).2 :=
      div_nonneg ha (le_of_lt h)
    simp only [getHealthRatio, if_pos h]
    nlinarith
  · simp only [getHealthRatio, if_neg h]
    norm_num

/-- C10 witness: on the borrow snapshot (nonnegative prices and weights)
the weighted totals are nonnegative and the ratio is at least −100. -/
theorem weighted_vals_nonneg_witness :
    0 ≤ (getWeightedAssetsLiabsVals wGroupS wCache
        (getHealthComponents wGroupS wCache wAccBor).spot
        (getHealthComponents wGroupS wCache wAccBor).perps
        (getHealthComponents wGroupS wCache wAccBor).quote .Init).1 ∧
      0 ≤ (getWeightedAssetsLiabsVals wGroupS wCache
        (getHealthComponents wGroupS wCache wAccBor).spot
        (getHealthComponents wGroupS wCache wAccBor).perps
        (getHealthComponents wGroupS wCache wAccBor).quote .Init).2 ∧
      -100 ≤ getHealthRatio wGroupS wCache wAccBor .Init :=
  weighted_vals_nonneg wGroupS wCache wAccBor .Init
    (fun i _ => by norm_num [wCache])
    (fun i _ => by norm_num [getWeights, wGroupS])

/-- C6 counterexample: with spot Init asset weight 2 (≥ 1) and a buy on the
spot market, getMaxLeverageForMarket divides by the non-positive 1 − 2 and
returns −2000 instead of the current Init health 2000: the claimed weight
guard is absent there. -/
theorem maxLeverage_weight_guard_counterexample :
    (1 : ℚ) ≤ (c6Group.spotMarkets 0).initAssetWeight ∧
      getHealth c6Group wCache wAccDep .Init = 2000 ∧
      getMaxLeverageForMarket c6Group wCache wAccDep 0 .spotMkt .buy 10 = -2000 ∧
      getMaxLeverageForMarket c6Group wCache wAccDep 0 .spotMkt .buy 10 ≠
        getHealth c6Group wCache wAccDep .Init := by
  norm_num [getMaxLeverageForMarket, getHealth, getHealthComponents,
    getHealthFromComponents, resolveSpot, resolveSpotCore, resolvePerp,
    resolvePerpCore, getNet, getWeights, spotWeightFor, perpWeightFor,
    getQuotePosition, getUiDeposit, getUiBorrow, getNativeDeposit,
    getNativeBorrow, nativeI80F48ToUi, c6Group, wCache, wAccDep, QUOTE_INDEX,
    Finset.sum_range_succ]

/-- C6 amended: of the four solvers only getMarketMarginAvailable
special-cases an Init asset weight ≥ 1, returning the unconstrained current
Init health instead of dividing by the non-positive 1 − weight; the other
three (getMaxLeverageForMarket, getMaxWithBorrowForToken,
getAvailableBalance) divide unconditionally. -/
theorem marginAvailable_weight_guard (g : EntropyGroup) (c : EntropyCache)
    (a : EntropyAccount) (marketIndex : ℕ) (isSpot : Bool)
    (hh : 0 < getHealth g c a .Init)
    (hw : (1 : ℚ) ≤ (if isSpot then (getWeights g marketIndex .Init).spotAssetWeight
      else (getWeights g marketIndex .Init).perpAssetWeight)) :
    getMarketMarginAvailable g c a marketIndex isSpot = getHealth g c a .Init := by
  simp only [getMarketMarginAvailable]
  rw [if_neg (not_le.mpr hh), if_pos hw]

/-- C6 amended witness: on the degenerate registry (weight 2) with positive
health 2000, getMarketMarginAvailable returns the current Init health. -/
theorem marginAvailable_weight_guard_witness :
    0 < getHealth c6Group wCache wAccDep .Init ∧
      (1 : ℚ) ≤ (if true then (getWeights c6Group 0 .Init).spotAssetWeight
        else (getWeights c6Group 0 .Init).perpAssetWeight) ∧
      getMarketMarginAvailable c6Group wCache wAccDep 0 true =
        getHealth c6Group wCache wAccDep .Init := by
  have hh : 0 < getHealth c6Group wCache wAccDep .Init := by
    norm_num [getHealth, getHealthComponents, getHealthFromComponents,
      resolveSpot, resolveSpotCore, resolvePerp, resolvePerpCore, getNet,
      getWeights, spotWeightFor, perpWeightFor, getQuotePosition, c6Group,
      wCache, wAccDep, QUOTE_INDEX, Finset.sum_range_succ]
  have hw : (1 : ℚ) ≤ (if true then (getWeights c6Group 0 .Init).spotAssetWeight
      else (getWeights c6Group 0 .Init).perpAssetWeight) := by
    norm_num [getWeights, c6Group]
  exact ⟨hh, hw, marginAvailable_weight_guard c6Group wCache wAccDep 0 true hh hw⟩

/-- C7 counterexample: increasing the token-0 borrow from 9 to 11 — a pure
liability-side increase, with price 1 and spot liab weight 1 (finite,
positive) in both regimes — flips the worst-case selection from the bids
case to the asks case, releasing the locked quote, and health rises from
1 to 8 under both regimes instead of strictly decreasing. -/
theorem health_not_monotone_in_borrow :
    c7A2 = { c7A1 with borrows := Function.update c7A1.borrows 0 11 } ∧
      c7A1.borrows 0 = 9 ∧ c7A2.borrows 0 = 11 ∧
      0 < c7Cache.priceCache 0 ∧
      (getWeights c7Group 0 .Init).spotLiabWeight = 1 ∧
      (getWeights c7Group 0 .Maint).spotLiabWeight = 1 ∧
      getHealth c7Group c7Cache c7A1 .Init = 1 ∧
      getHealth c7Group c7Cache c7A2 .Init = 8 ∧
      getHealth c7Group c7Cache c7A1 .Maint = 1 ∧
      getHealth c7Group c7Cache c7A2 .Maint = 8 := by
  refine ⟨rfl, ?_⟩
  norm_num [getHealth, getHealthComponents, getHealthFromComponents, resolveSpot,
    resolveSpotCore, resolvePerp, resolvePerpCore, getNet, getWeights,
    spotWeightFor, perpWeightFor, getQuotePosition, c7Group, c7Cache, c7A1,
    c7A2, Function.update, QUOTE_INDEX, Finset.sum_range_succ]

/-- C7 amended: the strict decrease holds for exposures resolved without the
open-orders worst-case branch: (1) increasing a borrow of a token whose
market is not in the margin basket (or has no open-orders record), with
positive borrow index, positive price, positive matching spot liab weight
and non-positive net balance, strictly decreases health under the given
regime; (2) decreasing the settled base position of a registered perp market
with no resting perp orders, positive lot size, positive price, positive
matching perp liab weight and non-positive base exposure likewise strictly
decreases health. With an open-orders record in the margin basket the claim
fails (see the counterexample). -/
theorem health_strict_decreasing_liabilities :
    (∀ (g : EntropyGroup) (c : EntropyCache) (a : EntropyAccount) (j : ℕ)
        (t : HealthType) (δ : ℚ),
      j < g.numOracles → j ≠ QUOTE_INDEX →
      (a.spotOpenOrdersAccounts j = none ∨ a.inMarginBasket j = false) →
      0 < δ → 0 < (c.rootBankCache j).borrowIndex → 0 < c.priceCache j →
      0 < (getWeights g j t).spotLiabWeight →
      getNet a (c.rootBankCache j) j ≤ 0 →
      getHealth g c
        { a with borrows := Function.update a.borrows j (a.borrows j + δ) } t <
        getHealth g c a t) ∧
    (∀ (g : EntropyGroup) (c : EntropyCache) (a : EntropyAccount) (j : ℕ)
        (t : HealthType) (δ : ℤ),
      j < g.numOracles → (g.perpMarkets j).present = true →
      (a.perpAccounts j).bidsQuantity = 0 →
      (a.perpAccounts j).asksQuantity = 0 →
      0 < δ → 0 < (g.perpMarkets j).baseLotSize → 0 < c.priceCache j →
      0 < (getWeights g j t).perpLiabWeight →
      (a.perpAccounts j).basePosition + (a.perpAccounts j).takerBase ≤ 0 →
      getHealth g c
        { a with perpAccounts :=
            Function.update a.perpAccounts j (decBasePosition (a.perpAccounts j) δ) } t <
        getHealth g c a t) := by
  constructor
  · intro g c a j t δ hj hjq hoo hδ hbi hp hw hnet
    have hδb : 0 < δ * (c.rootBankCache j).borrowIndex := mul_pos hδ hbi
    rw [getHealth_eq_sum, getHealth_eq_sum,
      getNet_update_borrows_ne a (c.rootBankCache QUOTE_INDEX) j (a.borrows j + δ)
        (Ne.symm hjq)]
    apply add_lt_add_left
    have hterm : marketHealthTerm g c
        { a with borrows := Function.update a.borrows j (a.borrows j + δ) } t j <
        marketHealthTerm g c a t j := by
      unfold marketHealthTerm
      rw [resolveSpot_update_borrows_self g c a j δ hoo,
        resolveSpot_absent g c a j hoo, resolvePerp_update_borrows]
      dsimp only
      have hwleft : spotWeightFor (getWeights g j t)
          (getNet a (c.rootBankCache j) j - δ * (c.rootBankCache j).borrowIndex) =
          (getWeights g j t).spotLiabWeight := by
        unfold spotWeightFor
        rw [if_neg (not_lt.mpr (by linarith))]
      have hwright : spotWeightFor (getWeights g j t)
          (getNet a (c.rootBankCache j) j) = (getWeights g j t).spotLiabWeight := by
        unfold spotWeightFor
        rw [if_neg (not_lt.mpr hnet)]
      rw [hwleft, hwright]
      have hmono := mul_lt_mul_of_pos_right (mul_lt_mul_of_pos_right
        (show getNet a (c.rootBankCache j) j - δ * (c.rootBankCache j).borrowIndex <
          getNet a (c.rootBankCache j) j by linarith) hp) hw
      linarith
    refine Finset.sum_lt_sum (fun i hi => ?_) ⟨j, Finset.mem_range.mpr hj, hterm⟩
    by_cases hij : i = j
    · subst hij
      exact le_of_lt hterm
    · unfold marketHealthTerm
      rw [resolveSpot_update_borrows_ne g c a j (a.borrows j + δ) hij,
        resolvePerp_update_borrows]
  · intro g c a j t δ hj hpres hbq haq hδ hlot hp hw hbase
    rw [getHealth_eq_sum, getHealth_eq_sum,
      getNet_update_perp a (c.rootBankCache QUOTE_INDEX) j
        (decBasePosition (a.perpAccounts j) δ) QUOTE_INDEX]
    apply add_lt_add_left
    have hvlt : ((((a.perpAccounts j).basePosition - δ + (a.perpAccounts j).takerBase) *
        (g.perpMarkets j).baseLotSize : ℤ) : ℚ) <
        ((((a.perpAccounts j).basePosition + (a.perpAccounts j).takerBase) *
        (g.perpMarkets j).baseLotSize : ℤ) : ℚ) := by
      have : ((a.perpAccounts j).basePosition - δ + (a.perpAccounts j).takerBase) *
          (g.perpMarkets j).baseLotSize <
          ((a.perpAccounts j).basePosition + (a.perpAccounts j).takerBase) *
          (g.perpMarkets j).baseLotSize :=
        mul_lt_mul_of_pos_right (by linarith) hlot
      exact_mod_cast this
    have hvle : ((((a.perpAccounts j).basePosition + (a.perpAccounts j).takerBase) *
        (g.perpMarkets j).baseLotSize : ℤ) : ℚ) ≤ 0 := by
      have : ((a.perpAccounts j).basePosition + (a.perpAccounts j).takerBase) *
          (g.perpMarkets j).baseLotSize ≤ 0 :=
        mul_nonpos_iff.mpr (Or.inr ⟨hbase, le_of_lt hlot⟩)
      exact_mod_cast this
    have hterm : marketHealthTerm g c
        { a with perpAccounts :=
            Function.update a.perpAccounts j (decBasePosition (a.perpAccounts j) δ) } t j <
        marketHealthTerm g c a t j := by
      unfold marketHealthTerm
      rw [resolveSpot_update_perp, resolvePerp_update_base_self g c a j δ hpres hbq haq,
        resolvePerp_no_orders g c a j hpres hbq haq]
      dsimp only
      have hwleft : perpWeightFor (getWeights g j t)
          ((((a.perpAccounts j).basePosition - δ + (a.perpAccounts j).takerBase) *
            (g.perpMarkets j).baseLotSize : ℤ) : ℚ) =
          (getWeights g j t).perpLiabWeight := by
        unfold perpWeightFor
        rw [if_neg (not_lt.mpr (by linarith))]
      have hwright : perpWeightFor (getWeights g j t)
          ((((a.perpAccounts j).basePosition + (a.perpAccounts j).takerBase) *
            (g.perpMarkets j).baseLotSize : ℤ) : ℚ) =
          (getWeights g j t).perpLiabWeight := by
        unfold perpWeightFor
        rw [if_neg (not_lt.mpr hvle)]
      rw [hwleft, hwright]
      have hmono := mul_lt_mul_of_pos_right (mul_lt_mul_of_pos_right hvlt hp) hw
      linarith
    refine Finset.sum_lt_sum (fun i hi => ?_) ⟨j, Finset.mem_range.mpr hj, hterm⟩
    by_cases hij : i = j
    · subst hij
      exact le_of_lt hterm
    · unfold marketHealthTerm
      rw [resolveSpot_update_perp,
        resolvePerp_update_perp_ne g c a j (decBasePosition (a.perpAccounts j) δ) hij]

/-- C7 amended witness: on the borrow-only snapshot (borrow 5 of token 0,
no open orders, price 1, liab weight 1, borrow index 1), adding 1 to the
borrow strictly decreases Init health. -/
theorem health_strict_decreasing_liabilities_witness :
    (0 : ℕ) < c7Group.numOracles ∧ (0 : ℚ) < 1 ∧
      getNet c7A3 (c7Cache.rootBankCache 0) 0 ≤ 0 ∧
      getHealth c7Group c7Cache
        { c7A3 with borrows := Function.update c7A3.borrows 0 (c7A3.borrows 0 + 1) } .Init <
        getHealth c7Group c7Cache c7A3 .Init := by
  refine ⟨by norm_num [c7Group], by norm_num, ?_, ?_⟩
  · norm_num [getNet, c7A3, c7Cache]
  · exact health_strict_decreasing_liabilities.1 c7Group c7Cache c7A3 0 .Init 1
      (by norm_num [c7Group]) (by norm_num [QUOTE_INDEX]) (Or.inr rfl)
      (by norm_num) (by norm_num [c7Cache]) (by norm_num [c7Cache])
      (by norm_num [getWeights, c7Group]) (by norm_num [getNet, c7A3, c7Cache])

/-- C9: the all-zero snapshot has health 0 and health ratio 100 under both
regimes, for every registry and cache. -/
theorem zero_snapshot_health (g : EntropyGroup) (c : EntropyCache)
    (t : HealthType) :
    getHealth g c zeroAccount t = 0 ∧ getHealthRatio g c zeroAccount t = 100 := by
  constructor
  · simp [getHealth, getHealthFromComponents, getHealthComponents,
      resolveSpot_zeroAccount, resolvePerp_zeroAccount, getNet_zeroAccount]
  · simp [getHealthRatio, getWeightedAssetsLiabsVals, getHealthComponents,
      resolveSpot_zeroAccount, resolvePerp_zeroAccount, getNet_zeroAccount]
